import Mathlib

/-!
Shallow embedding of the core of the shakmaty chess library
(`src/bitboard.rs`, `src/position.rs`, `src/uci.rs`, `src/fen.rs`).

Conventions of the embedding:
* A `Square` is a natural number `0..63` (file = `sq % 8`, rank = `sq / 8`,
  a1 = 0, h8 = 63), as in the library.
* A `Bitboard` is a natural number; the invariant of interest is that it is
  `< 2^64` with bit `i` set iff square `i` is in the set.  Bit operations use
  `Nat` bitwise operators; complement is taken against the 64-bit mask.
* `u8`/`u32` saturating arithmetic is modelled with explicit `min` against the
  corresponding maximum.
* The source files `square.rs`, `types.rs`, `board.rs`, `attacks.rs` and
  `setup.rs` of the repository are not available; the definitions for those
  parts are modelled from the specification (sections 3, 4.1 and 4.2) and are
  marked `Modelled from the spec:` in their doc comments.
-/

namespace Shak

/-- Modelled from the spec: `Color` (White/Black), `types.rs` missing. -/
inductive Color where
  | white
  | black
deriving DecidableEq

/-- Modelled from the spec: `!color` flips the color. -/
def Color.other : Color → Color
  | .white => .black
  | .black => .white

/-- Modelled from the spec: `fold(w, b)` selects based on side. -/
def Color.fold {α : Type} (c : Color) (w b : α) : α :=
  match c with
  | .white => w
  | .black => b

/-- Modelled from the spec: `Role` (Pawn..King), `types.rs` missing. -/
inductive Role where
  | pawn
  | knight
  | bishop
  | rook
  | queen
  | king
deriving DecidableEq

/-- Modelled from the spec: `Piece` = (Color, Role). -/
structure Piece where
  color : Color
  role : Role
deriving DecidableEq

/-! ## Squares (modelled from the spec, `square.rs` missing) -/

/-- Modelled from the spec: `file = idx & 7`. -/
def sqFile (sq : Nat) : Nat := sq % 8

/-- Modelled from the spec: `rank = idx >> 3`. -/
def sqRank (sq : Nat) : Nat := sq / 8

/-- Modelled from the spec: `combine(a,b)` = square with file of `a` and rank
of `b`. -/
def sqCombine (a b : Nat) : Nat := sqFile a + 8 * sqRank b

/-- Modelled from the spec: `delta(a,b) = b.index - a.index`. -/
def sqDelta (a b : Nat) : Int := (b : Int) - (a : Int)

/-- Modelled from the spec:
`distance(a,b) = max(|file_a - file_b|, |rank_a - rank_b|)`. -/
def sqDistance (a b : Nat) : Nat :=
  max ((sqFile a : Int) - (sqFile b : Int)).natAbs
      ((sqRank a : Int) - (sqRank b : Int)).natAbs

/-- Modelled from the spec: `offset(delta) -> Option<Square>` with a bounds
check.  The only deltas used by the embedded code are multiples of 8 (vertical
steps), for which the bounds check and the file-wrap check of the spec agree. -/
def sqOffset (sq : Nat) (d : Int) : Option Nat :=
  let i : Int := (sq : Int) + d
  if 0 ≤ i ∧ i < 64 then some i.toNat else none

/-! ## Bitboards (`src/bitboard.rs`) -/

/-- A set of squares represented by a 64 bit integer mask
(`Bitboard` in `bitboard.rs`). -/
abbrev Bitboard := Nat

/-- The all-ones 64-bit mask, `Bitboard::all()`. -/
def mask64 : Bitboard := 0xffffffffffffffff

/-- `Bitboard::from_square`: `1 << sq`. -/
def bbFromSquare (sq : Nat) : Bitboard := 1 <<< sq

/-- Bitwise complement within 64 bits (`!bb` on a `u64`). -/
def bbNot (b : Bitboard) : Bitboard := mask64 ^^^ b

/-- `Bitboard::contains`: membership test of a square. -/
def bbContains (b : Bitboard) (sq : Nat) : Bool := b.testBit sq

/-- `Bitboard::add`: `self.0 |= 1 << sq`. -/
def bbAdd (b : Bitboard) (sq : Nat) : Bitboard := b ||| bbFromSquare sq

/-- `Bitboard::add_all`: `self.0 |= bb`. -/
def bbAddAll (b bb : Bitboard) : Bitboard := b ||| bb

/-- `Bitboard::flip`: `self.0 ^= 1 << sq`. -/
def bbFlip (b : Bitboard) (sq : Nat) : Bitboard := b ^^^ bbFromSquare sq

/-- `Bitboard::discard`: `self.0 &= !(1 << sq)`. -/
def bbDiscard (b : Bitboard) (sq : Nat) : Bitboard := b &&& bbNot (bbFromSquare sq)

/-- `Bitboard::discard_all`: `self.0 &= !bb`. -/
def bbDiscardAll (b bb : Bitboard) : Bitboard := b &&& bbNot bb

/-- `Bitboard::set(sq, v)`: exactly as in the source, `discard` when `v` is
true and `add` when `v` is false. -/
def bbSet (b : Bitboard) (sq : Nat) (v : Bool) : Bitboard :=
  if v then bbDiscard b sq else bbAdd b sq

/-- `Bitboard::is_empty`. -/
def bbIsEmpty (b : Bitboard) : Bool := b = 0

/-- `Bitboard::any`. -/
def bbAny (b : Bitboard) : Bool := b ≠ 0

/-- The members of a bitboard in increasing square order; forward iteration of
`Bitboard` consumes the lowest set bit first. -/
def bbSquares (b : Bitboard) : List Nat :=
  (List.range 64).filter (fun sq => bbContains b sq)

/-- `Bitboard::first`: the lowest-index member, if any. -/
def bbFirst (b : Bitboard) : Option Nat := (bbSquares b).head?

/-- `Bitboard::last` (via the reverse iterator): the highest-index member. -/
def bbLast (b : Bitboard) : Option Nat := (bbSquares b).getLast?

/-- `Bitboard::count`: population count. -/
def bbCount (b : Bitboard) : Nat := (bbSquares b).length

/-- `Bitboard::more_than_one`: `self.0 & self.0.wrapping_sub(1) != 0`
(for `b = 0` both the wrapping and the saturating subtraction give a result
whose intersection with `b` is empty). -/
def bbMoreThanOne (b : Bitboard) : Bool := b &&& (b - 1) ≠ 0

/-- `Bitboard::single_square`. -/
def bbSingleSquare (b : Bitboard) : Option Nat :=
  if bbMoreThanOne b then none else bbFirst b

/-- `Bitboard::rank`: all squares of the given rank. -/
def bbRank (r : Nat) : Bitboard := if r < 8 then 0xff <<< (8 * r) else 0

/-- `Bitboard::file`: all squares of the given file. -/
def bbFile (f : Nat) : Bitboard := if f < 8 then 0x0101010101010101 <<< f else 0

/-- `Bitboard::relative_rank`: like `rank`, from `color`'s point of view. -/
def bbRelativeRank (c : Color) (r : Nat) : Bitboard :=
  match c with
  | .white => bbRank r
  | .black => if r < 8 then 0xff00000000000000 >>> (8 * r) else 0

/-- `Bitboard::relative_shift`: `<<` for White and `>>` for Black (the left
shift discards bits beyond the 64-bit width, as on a `u64`). -/
def bbRelativeShift (b : Bitboard) (c : Color) (n : Nat) : Bitboard :=
  match c with
  | .white => (b <<< n) &&& mask64
  | .black => b >>> n

/-- `DARK_SQUARES`. -/
def darkSquares : Bitboard := 0xaa55aa55aa55aa55

/-- `LIGHT_SQUARES`. -/
def lightSquares : Bitboard := 0x55aa55aa55aa55aa

/-- `CORNERS` (a1, h1, a8, h8). -/
def corners : Bitboard := 0x8100000000000081

/-- `HILL` (d4, e4, d5, e5). -/
def hill : Bitboard := 0x1818000000

/-- `BACKRANKS` (ranks 1 and 8). -/
def backranks : Bitboard := 0xff000000000000ff

/-! ## Attack tables (modelled from the spec, `attacks.rs` missing) -/

/-- Modelled from the spec: step from `sq` by a (file, rank) delta, `none`
when this leaves the board. -/
def tryDelta (sq : Nat) (df dr : Int) : Option Nat :=
  let f : Int := (sqFile sq : Int) + df
  let r : Int := (sqRank sq : Int) + dr
  if 0 ≤ f ∧ f < 8 ∧ 0 ≤ r ∧ r < 8 then some (f.toNat + 8 * r.toNat) else none

/-- Collect the squares of a list of optional steps into a bitboard. -/
def maskOfSteps (l : List (Option Nat)) : Bitboard :=
  l.foldl (fun b o => match o with | some s => bbAdd b s | none => b) 0

/-- Modelled from the spec: precomputed king attack mask per square
(the 8-neighbourhood). -/
def kingAttacks (sq : Nat) : Bitboard :=
  maskOfSteps ([(-1, -1), (0, -1), (1, -1), (-1, 0), (1, 0), (-1, 1), (0, 1),
    (1, 1)].map (fun d => tryDelta sq d.1 d.2))

/-- Modelled from the spec: precomputed knight attack mask per square. -/
def knightAttacks (sq : Nat) : Bitboard :=
  maskOfSteps ([(-1, -2), (1, -2), (-2, -1), (2, -1), (-2, 1), (2, 1), (-1, 2),
    (1, 2)].map (fun d => tryDelta sq d.1 d.2))

/-- Modelled from the spec: pawn attack masks per square and color
(forward diagonals, `+rank` for White and `-rank` for Black). -/
def pawnAttacks (c : Color) (sq : Nat) : Bitboard :=
  match c with
  | .white => maskOfSteps [tryDelta sq (-1) 1, tryDelta sq 1 1]
  | .black => maskOfSteps [tryDelta sq (-1) (-1), tryDelta sq 1 (-1)]

/-- Modelled from the spec: ray-trace from a square in one direction, stopping
at (and including) the first blocker; `fuel` bounds the walk at the board
diameter. -/
def slideDir (occupied : Bitboard) (df dr : Int) : Nat → Nat → Bitboard
  | 0, _ => 0
  | fuel + 1, cur =>
    match tryDelta cur df dr with
    | none => 0
    | some s =>
      if bbContains occupied s then bbFromSquare s
      else bbAdd (slideDir occupied df dr fuel s) s

/-- Modelled from the spec: `bishop_attacks(sq, occupied)` by ray-tracing the
four diagonal directions to the first blocker. -/
def bishopAttacks (sq : Nat) (occupied : Bitboard) : Bitboard :=
  slideDir occupied (-1) (-1) 7 sq ||| slideDir occupied 1 (-1) 7 sq |||
  slideDir occupied (-1) 1 7 sq ||| slideDir occupied 1 1 7 sq

/-- Modelled from the spec: `rook_attacks(sq, occupied)` by ray-tracing the
four orthogonal directions to the first blocker. -/
def rookAttacks (sq : Nat) (occupied : Bitboard) : Bitboard :=
  slideDir occupied 0 (-1) 7 sq ||| slideDir occupied 0 1 7 sq |||
  slideDir occupied (-1) 0 7 sq ||| slideDir occupied 1 0 7 sq

/-- Modelled from the spec: `queen_attacks = bishop ∪ rook`. -/
def queenAttacks (sq : Nat) (occupied : Bitboard) : Bitboard :=
  bishopAttacks sq occupied ||| rookAttacks sq occupied

/-- Modelled from the spec: the unit direction from `a` to `b` when the two
squares share a file, rank or diagonal, and `none` otherwise. -/
def dirUnit (a b : Nat) : Option (Int × Int) :=
  if a = b then none
  else
    let df : Int := (sqFile b : Int) - (sqFile a : Int)
    let dr : Int := (sqRank b : Int) - (sqRank a : Int)
    if df = 0 ∨ dr = 0 ∨ df.natAbs = dr.natAbs then some (df.sign, dr.sign)
    else none

/-- Walk from `cur` (exclusive) in direction `(df, dr)` to the board edge. -/
def walkDir (df dr : Int) : Nat → Nat → Bitboard
  | 0, _ => 0
  | fuel + 1, cur =>
    match tryDelta cur df dr with
    | none => 0
    | some s => bbAdd (walkDir df dr fuel s) s

/-- Walk from `cur` (exclusive) in direction `(df, dr)` until reaching `stop`
(exclusive) or the board edge. -/
def walkUntil (stop : Nat) (df dr : Int) : Nat → Nat → Bitboard
  | 0, _ => 0
  | fuel + 1, cur =>
    match tryDelta cur df dr with
    | none => 0
    | some s => if s = stop then 0 else bbAdd (walkUntil stop df dr fuel s) s

/-- Modelled from the spec: `between(a, b)` = the set of squares strictly
between `a` and `b` on their shared file, rank or diagonal, empty when the
squares are not aligned. -/
def between (a b : Nat) : Bitboard :=
  match dirUnit a b with
  | none => 0
  | some (df, dr) => walkUntil b df dr 7 a

/-- Modelled from the spec: `ray(a, b)` = the full line through `a` and `b`
(empty when the squares are not aligned).  The line carries both endpoints:
the evasion generator removes the checker from it with an xor and the pinned
sliders move only on `ray(from, king)`, which must allow capturing the
sniper, so the line includes every square of the file/rank/diagonal. -/
def ray (a b : Nat) : Bitboard :=
  match dirUnit a b with
  | none => 0
  | some (df, dr) => bbAdd (walkDir df dr 7 a ||| walkDir (-df) (-dr) 7 a) a

/-- Modelled from the spec: `aligned(a, b, c)` iff the three squares are
colinear on a file, rank or diagonal. -/
def aligned (a b c : Nat) : Bool := bbContains (ray a b) c

/-! ## Board (modelled from the spec, `board.rs` missing) -/

/-- Modelled from the spec: the `Board` — dense piece placement backed by
bitboards per color and per role, plus a `promoted` overlay. -/
structure Board where
  white : Bitboard
  black : Bitboard
  pawns : Bitboard
  knights : Bitboard
  bishops : Bitboard
  rooks : Bitboard
  queens : Bitboard
  kings : Bitboard
  promoted : Bitboard
deriving DecidableEq

namespace Board

/-- Modelled from the spec: the `empty()` board factory. -/
def empty : Board := ⟨0, 0, 0, 0, 0, 0, 0, 0, 0⟩

/-- Modelled from the spec: `occupied = by_color[W] ∪ by_color[B]`. -/
def occupied (bd : Board) : Bitboard := bd.white ||| bd.black

/-- Modelled from the spec: `by_color`. -/
def byColor (bd : Board) (c : Color) : Bitboard := c.fold bd.white bd.black

/-- Modelled from the spec: `by_role`. -/
def byRole (bd : Board) (r : Role) : Bitboard :=
  match r with
  | .pawn => bd.pawns
  | .knight => bd.knights
  | .bishop => bd.bishops
  | .rook => bd.rooks
  | .queen => bd.queens
  | .king => bd.kings

/-- Modelled from the spec: `by_piece(piece) = by_color(color) ∩ by_role(role)`. -/
def byPiece (bd : Board) (p : Piece) : Bitboard := bd.byColor p.color &&& bd.byRole p.role

/-- `rooks_and_queens`. -/
def rooksAndQueens (bd : Board) : Bitboard := bd.rooks ||| bd.queens

/-- `bishops_and_queens`. -/
def bishopsAndQueens (bd : Board) : Bitboard := bd.bishops ||| bd.queens

/-- The sliding pieces (bishops, rooks and queens). -/
def sliders (bd : Board) : Bitboard := bd.bishops ||| bd.rooks ||| bd.queens

/-- Modelled from the spec: `role_at`. -/
def roleAt (bd : Board) (sq : Nat) : Option Role :=
  if bbContains bd.pawns sq then some .pawn
  else if bbContains bd.knights sq then some .knight
  else if bbContains bd.bishops sq then some .bishop
  else if bbContains bd.rooks sq then some .rook
  else if bbContains bd.queens sq then some .queen
  else if bbContains bd.kings sq then some .king
  else none

/-- Modelled from the spec: `piece_at`. -/
def pieceAt (bd : Board) (sq : Nat) : Option Piece :=
  (bd.roleAt sq).map (fun r =>
    ⟨if bbContains bd.white sq then Color.white else Color.black, r⟩)

/-- Modelled from the spec: `king_of(color)`. -/
def kingOf (bd : Board) (c : Color) : Option Nat := bbFirst (bd.kings &&& bd.byColor c)

/-- Discard a square from every bitboard of the board. -/
def discardAt (bd : Board) (sq : Nat) : Board :=
  { white := bbDiscard bd.white sq
    black := bbDiscard bd.black sq
    pawns := bbDiscard bd.pawns sq
    knights := bbDiscard bd.knights sq
    bishops := bbDiscard bd.bishops sq
    rooks := bbDiscard bd.rooks sq
    queens := bbDiscard bd.queens sq
    kings := bbDiscard bd.kings sq
    promoted := bbDiscard bd.promoted sq }

/-- Modelled from the spec: `remove_piece_at(sq) -> Option<Piece>`. -/
def removePieceAt (bd : Board) (sq : Nat) : Board × Option Piece :=
  match bd.pieceAt sq with
  | none => (bd, none)
  | some p => (bd.discardAt sq, some p)

/-- Add a piece bit to the board (the square is assumed cleared). -/
def addPieceBits (bd : Board) (sq : Nat) (p : Piece) (prom : Bool) : Board :=
  { white := if p.color = .white then bbAdd bd.white sq else bd.white
    black := if p.color = .black then bbAdd bd.black sq else bd.black
    pawns := if p.role = .pawn then bbAdd bd.pawns sq else bd.pawns
    knights := if p.role = .knight then bbAdd bd.knights sq else bd.knights
    bishops := if p.role = .bishop then bbAdd bd.bishops sq else bd.bishops
    rooks := if p.role = .rook then bbAdd bd.rooks sq else bd.rooks
    queens := if p.role = .queen then bbAdd bd.queens sq else bd.queens
    kings := if p.role = .king then bbAdd bd.kings sq else bd.kings
    promoted := if prom then bbAdd bd.promoted sq else bd.promoted }

/-- Modelled from the spec: `set_piece_at(sq, piece, promoted)` overwrites the
square. -/
def setPieceAt (bd : Board) (sq : Nat) (p : Piece) (prom : Bool) : Board :=
  addPieceBits (bd.removePieceAt sq).1 sq p prom

/-- Modelled from the spec: `attacks_to(sq, attacker, occupied)` — all squares
holding `attacker`'s pieces that attack `sq` given the occupancy, the union
over piece kinds of their attack sets intersected with the attacker's pieces. -/
def attacksTo (bd : Board) (sq : Nat) (attacker : Color) (occupied : Bitboard) : Bitboard :=
  bd.byColor attacker &&&
    ((kingAttacks sq &&& bd.kings) |||
     (knightAttacks sq &&& bd.knights) |||
     (pawnAttacks attacker.other sq &&& bd.pawns) |||
     (rookAttacks sq occupied &&& bd.rooksAndQueens) |||
     (bishopAttacks sq occupied &&& bd.bishopsAndQueens))

end Board

/-! ## Moves, pockets, remaining checks (`types.rs` missing, modelled from the spec) -/

/-- Modelled from the spec: tagged move values (Normal, EnPassant, Castle,
Put, Null).  `orig`/`dest` stand for the source's `from`/`to` fields. -/
inductive Move where
  | normal (role : Role) (orig : Nat) (capture : Option Role) (dest : Nat)
      (promo : Option Role)
  | enPassant (orig dest : Nat)
  | castle (king rook : Nat)
  | put (role : Role) (dest : Nat)
  | null
deriving DecidableEq

/-- Modelled from the spec: one side's pocket — a multiset of roles with
saturating 8-bit counts. -/
structure Pocket where
  pawns : Nat
  knights : Nat
  bishops : Nat
  rooks : Nat
  queens : Nat
  kings : Nat
deriving DecidableEq

/-- The empty pocket. -/
def Pocket.empty : Pocket := ⟨0, 0, 0, 0, 0, 0⟩

/-- Saturating 8-bit increment. -/
def satIncr8 (n : Nat) : Nat := min (n + 1) 255

/-- Add one piece of the given role to a pocket (saturating). -/
def Pocket.incr (p : Pocket) (r : Role) : Pocket :=
  match r with
  | .pawn => { p with pawns := satIncr8 p.pawns }
  | .knight => { p with knights := satIncr8 p.knights }
  | .bishop => { p with bishops := satIncr8 p.bishops }
  | .rook => { p with rooks := satIncr8 p.rooks }
  | .queen => { p with queens := satIncr8 p.queens }
  | .king => { p with kings := satIncr8 p.kings }

/-- Remove one piece of the given role from a pocket (saturating at 0). -/
def Pocket.decr (p : Pocket) (r : Role) : Pocket :=
  match r with
  | .pawn => { p with pawns := p.pawns - 1 }
  | .knight => { p with knights := p.knights - 1 }
  | .bishop => { p with bishops := p.bishops - 1 }
  | .rook => { p with rooks := p.rooks - 1 }
  | .queen => { p with queens := p.queens - 1 }
  | .king => { p with kings := p.kings - 1 }

/-- Number of pieces of a role in a pocket. -/
def Pocket.byRole (p : Pocket) (r : Role) : Nat :=
  match r with
  | .pawn => p.pawns
  | .knight => p.knights
  | .bishop => p.bishops
  | .rook => p.rooks
  | .queen => p.queens
  | .king => p.kings

/-- Modelled from the spec: `Pockets`, one pocket per color. -/
structure Pockets where
  white : Pocket
  black : Pocket
deriving DecidableEq

/-- Empty pockets. -/
def Pockets.empty : Pockets := ⟨Pocket.empty, Pocket.empty⟩

/-- Modelled from the spec: `Pockets::add(piece)` puts the piece in the pocket
of its color. -/
def Pockets.add (ps : Pockets) (p : Piece) : Pockets :=
  match p.color with
  | .white => { ps with white := ps.white.incr p.role }
  | .black => { ps with black := ps.black.incr p.role }

/-- Modelled from the spec: `Pockets::remove(piece)` (saturating at 0). -/
def Pockets.remove (ps : Pockets) (p : Piece) : Pockets :=
  match p.color with
  | .white => { ps with white := ps.white.decr p.role }
  | .black => { ps with black := ps.black.decr p.role }

/-- Modelled from the spec: `Pockets::by_piece(piece)`. -/
def Pockets.byPiece (ps : Pockets) (p : Piece) : Nat :=
  (p.color.fold ps.white ps.black).byRole p.role

/-- Modelled from the spec: `RemainingChecks`, a pair of 8-bit counts. -/
structure RemainingChecks where
  white : Nat
  black : Nat
deriving DecidableEq

/-- Modelled from the spec: `subtract(color)` saturating-decrements the given
side's count. -/
def RemainingChecks.subtract (rc : RemainingChecks) (c : Color) : RemainingChecks :=
  match c with
  | .white => { rc with white := rc.white - 1 }
  | .black => { rc with black := rc.black - 1 }

/-- `Outcome` of a game (`position.rs`). -/
inductive Outcome where
  | decisive (winner : Color)
  | draw
deriving DecidableEq

/-! ## The shared state transition `do_move` (`position.rs`, lines 1237-1301) -/

/-- The six pieces of state threaded by reference through `do_move`. -/
structure Core where
  board : Board
  turn : Color
  castlingRights : Bitboard
  epSquare : Option Nat
  halfmoveClock : Nat
  fullmoves : Nat
deriving DecidableEq

/-- `u32::saturating_add`. -/
def satAdd32 (a b : Nat) : Nat := min (a + b) 0xffffffff

/-- `do_move` (`position.rs` lines 1237-1301): the shared state transition
applied by every variant's `play_unchecked`. -/
def doMove (c : Core) (m : Move) : Core :=
  let color := c.turn
  let hm0 := satAdd32 c.halfmoveClock 1
  let next : Board × Bitboard × Option Nat × Nat :=
    match m with
    | .normal role orig capture dest promo =>
      let hm := if role = .pawn ∨ capture.isSome then 0 else hm0
      let ep := if role = .pawn ∧ sqDistance orig dest = 2 then
          sqOffset orig (color.fold 8 (-8))
        else none
      let cr := if role = .king then
          bbDiscardAll c.castlingRights (bbRelativeRank color 0)
        else bbDiscard (bbDiscard c.castlingRights orig) dest
      let prom := bbContains c.board.promoted orig || promo.isSome
      let bd := (c.board.removePieceAt orig).1
      let bd := bd.setPieceAt dest ⟨color, promo.getD role⟩ prom
      (bd, cr, ep, hm)
    | .castle king rook =>
      let rookTo := sqCombine (if sqDelta rook king < 0 then 3 else 5) rook
      let kingTo := sqCombine (if sqDelta rook king < 0 then 2 else 6) king
      let bd := (c.board.removePieceAt king).1
      let bd := (bd.removePieceAt rook).1
      let bd := bd.setPieceAt rookTo ⟨color, .rook⟩ false
      let bd := bd.setPieceAt kingTo ⟨color, .king⟩ false
      (bd, bbDiscardAll c.castlingRights (bbRelativeRank color 0), none, hm0)
    | .enPassant orig dest =>
      let bd := (c.board.removePieceAt (sqCombine dest orig)).1
      let (bd, captured) := bd.removePieceAt orig
      let bd := match captured with
        | some piece => bd.setPieceAt dest piece false
        | none => bd
      (bd, c.castlingRights, none, 0)
    | .put role dest =>
      (c.board.setPieceAt dest ⟨color, role⟩ false, c.castlingRights, none, hm0)
    | .null => (c.board, c.castlingRights, none, hm0)
  { board := next.1
    turn := color.other
    castlingRights := next.2.1
    epSquare := next.2.2.1
    halfmoveClock := next.2.2.2
    fullmoves := if color = .black then satAdd32 c.fullmoves 1 else c.fullmoves }

/-! ## Position view and move generation (`position.rs`) -/

/-- The slice of the `Position` trait needed by the shared generators: the
setup fields plus the two overridable methods `king_attackers` and
`castling_uncovers_rank_attack`, and the `KING_PROMOTIONS` flag. -/
structure PView where
  board : Board
  turn : Color
  castlingRights : Bitboard
  kAtt : Nat → Color → Bitboard → Bitboard
  uncovers : Nat → Nat → Bool
  kingPromos : Bool

/-- Modelled from the spec: `us()` = our pieces (`setup.rs` missing). -/
def PView.us (v : PView) : Bitboard := v.board.byColor v.turn

/-- Modelled from the spec: `them()` = opponent pieces. -/
def PView.them (v : PView) : Bitboard := v.board.byColor v.turn.other

/-- Modelled from the spec: `our(role)` = `by_piece(role.of(turn))`. -/
def PView.our (v : PView) (r : Role) : Bitboard := v.us &&& v.board.byRole r

/-- `Position::checkers`: attackers of the side-to-move's king, empty when
there is no king (`position.rs` lines 143-146). -/
def checkersOf (v : PView) : Bitboard :=
  (bbFirst (v.our .king)).elim 0 (fun king => v.kAtt king v.turn.other v.board.occupied)

/-- `castling_uncovers_rank_attack` (`position.rs` lines 1481-1485). -/
def castlingUncoversRankAttack (bd : Board) (turn : Color) (rook kingTo : Nat) : Bool :=
  bbAny (rookAttacks kingTo (bbDiscard bd.occupied rook) &&& bd.byColor turn.other &&&
    bd.rooksAndQueens &&& bbRank (sqRank kingTo))

/-- `push_promotions` (`position.rs` lines 1636-1645): king first when
`KING_PROMOTIONS`, then queen, rook, bishop, knight. -/
def pushPromotions (kingPromos : Bool) (orig dest : Nat) (capture : Option Role) : List Move :=
  (if kingPromos then [Move.normal .pawn orig capture dest (some .king)] else []) ++
  [Move.normal .pawn orig capture dest (some .queen),
   Move.normal .pawn orig capture dest (some .rook),
   Move.normal .pawn orig capture dest (some .bishop),
   Move.normal .pawn orig capture dest (some .knight)]

/-- `gen_pawn_moves` (`position.rs` lines 1577-1634), with the pin filter `f`
passed as a function, as in the source. -/
def genPawnMoves (v : PView) (target : Bitboard) (f : Nat → Nat → Bool) : List Move :=
  let seventh := v.our .pawn &&& bbRelativeRank v.turn 6
  let capsPlain := (bbSquares (v.our .pawn &&& bbNot seventh)).flatMap (fun o =>
    (bbSquares (pawnAttacks v.turn o &&& v.them &&& target)).filterMap (fun d =>
      if f o d then some (.normal .pawn o (v.board.roleAt d) d none) else none))
  let capsPromo := (bbSquares seventh).flatMap (fun o =>
    (bbSquares (pawnAttacks v.turn o &&& v.them &&& target)).flatMap (fun d =>
      if f o d then pushPromotions v.kingPromos o d (v.board.roleAt d) else []))
  let singles := bbRelativeShift (v.our .pawn) v.turn 8 &&& bbNot v.board.occupied
  let doubles := bbRelativeShift singles v.turn 8 &&& bbRelativeRank v.turn 3 &&&
    bbNot v.board.occupied
  let singlePlain := (bbSquares (singles &&& target &&& bbNot backranks)).filterMap (fun d =>
    match sqOffset d (v.turn.fold (-8) 8) with
    | some o => if f o d then some (.normal .pawn o none d none) else none
    | none => none)
  let singlePromo := (bbSquares (singles &&& target &&& backranks)).flatMap (fun d =>
    match sqOffset d (v.turn.fold (-8) 8) with
    | some o => if f o d then pushPromotions v.kingPromos o d none else []
    | none => [])
  let doubleMoves := (bbSquares (doubles &&& target)).filterMap (fun d =>
    match sqOffset d (v.turn.fold (-16) 16) with
    | some o => if f o d then some (.normal .pawn o none d none) else none
    | none => none)
  capsPlain ++ capsPromo ++ singlePlain ++ singlePromo ++ doubleMoves

/-- `Stepper::gen_moves` / `Slider::gen_moves` share this shape; `att` is the
piece's attack function applied to the current occupancy where relevant. -/
def genPieceMoves (v : PView) (r : Role) (att : Nat → Bitboard) (target : Bitboard) :
    List Move :=
  (bbSquares (v.our r)).flatMap (fun o =>
    (bbSquares (att o &&& target)).map (fun d => .normal r o (v.board.roleAt d) d none))

/-- `slider_blockers` (`position.rs` lines 1696-1711). -/
def sliderBlockers (bd : Board) (enemy : Bitboard) (king : Nat) : Bitboard :=
  let snipers := (rookAttacks king 0 &&& bd.rooksAndQueens) |||
                 (bishopAttacks king 0 &&& bd.bishopsAndQueens)
  (bbSquares (snipers &&& enemy)).foldl (fun blockers sniper =>
    let b := between king sniper &&& bd.occupied
    if bbMoreThanOne b then blockers else bbAddAll blockers b) 0

/-- `KnightTag::gen_safe_moves` (`position.rs` lines 1553-1559). -/
def genSafeKnight (v : PView) (target blockers : Bitboard) : List Move :=
  (bbSquares (v.our .knight &&& bbNot blockers)).flatMap (fun o =>
    (bbSquares (knightAttacks o &&& target)).map (fun d =>
      .normal .knight o (v.board.roleAt d) d none))

/-- `Slider::gen_safe_moves` (`position.rs` lines 1516-1531): unpinned sliders
move freely within `target`, pinned ones only along the ray through the king. -/
def genSafeSlider (v : PView) (r : Role) (att : Nat → Bitboard → Bitboard)
    (target : Bitboard) (king : Nat) (blockers : Bitboard) : List Move :=
  let pieces := v.our r
  (bbSquares (pieces &&& bbNot blockers)).flatMap (fun o =>
    (bbSquares (att o v.board.occupied &&& target)).map (fun d =>
      .normal r o (v.board.roleAt d) d none)) ++
  (bbSquares (pieces &&& blockers)).flatMap (fun o =>
    (bbSquares (att o v.board.occupied &&& target &&& ray o king)).map (fun d =>
      .normal r o (v.board.roleAt d) d none))

/-- `gen_safe_king` (`position.rs` lines 1419-1432): king moves to squares of
`target` that are not attacked by the enemy. -/
def genSafeKing (v : PView) (target : Bitboard) : List Move :=
  (bbSquares (v.our .king)).flatMap (fun o =>
    (bbSquares (kingAttacks o &&& target)).filterMap (fun d =>
      if bbIsEmpty (v.board.attacksTo d v.turn.other v.board.occupied) then
        some (.normal .king o (v.board.roleAt d) d none)
      else none))

/-- `gen_safe_non_king` (`position.rs` lines 1408-1417). -/
def genSafeNonKing (v : PView) (target : Bitboard) (king : Nat) : List Move :=
  let blockers := sliderBlockers v.board v.them king
  genPawnMoves v target (fun o d => !bbContains blockers o || aligned o d king) ++
  genSafeKnight v target blockers ++
  genSafeSlider v .bishop bishopAttacks target king blockers ++
  genSafeSlider v .rook rookAttacks target king blockers ++
  genSafeSlider v .queen queenAttacks target king blockers

/-- `gen_non_king` (`position.rs` lines 1400-1406). -/
def genNonKing (v : PView) (target : Bitboard) : List Move :=
  genPawnMoves v target (fun _ _ => true) ++
  genPieceMoves v .knight knightAttacks target ++
  genPieceMoves v .bishop (fun o => bishopAttacks o v.board.occupied) target ++
  genPieceMoves v .rook (fun o => rookAttacks o v.board.occupied) target ++
  genPieceMoves v .queen (fun o => queenAttacks o v.board.occupied) target

/-- `evasions` (`position.rs` lines 1434-1448). -/
def evasions (v : PView) (king : Nat) (checkers : Bitboard) : List Move :=
  let sl := checkers &&& v.board.sliders
  let attacked := (bbSquares sl).foldl (fun a checker =>
    a ||| (ray checker king ^^^ bbFromSquare checker)) 0
  genSafeKing v (bbNot v.us &&& bbNot attacked) ++
  (match bbSingleSquare checkers with
   | some checker => genSafeNonKing v (bbAdd (between king checker) checker) king
   | none => [])

/-- `gen_castling_moves` (`position.rs` lines 1450-1479). -/
def genCastlingMoves (v : PView) (king : Nat) : List Move :=
  (bbSquares (v.castlingRights &&& bbRelativeRank v.turn 0)).filterMap (fun rook =>
    let kingTo := if king < rook then v.turn.fold 6 62 else v.turn.fold 2 58
    let rookTo := if king < rook then v.turn.fold 5 61 else v.turn.fold 3 59
    let kingPath := bbAdd (between king kingTo) kingTo
    let rookPath := bbAdd (between rook rookTo) rookTo
    if bbAny (bbFlip (bbFlip v.board.occupied king) rook &&& (kingPath ||| rookPath)) then
      none
    else if (bbSquares (bbAdd kingPath king)).any (fun sq =>
        bbAny (v.kAtt sq v.turn.other (bbFlip v.board.occupied king))) then
      none
    else if v.uncovers rook kingTo then none
    else some (.castle king rook))

/-- `gen_en_passant` (`position.rs` lines 1663-1694). -/
def genEnPassant (bd : Board) (turn : Color) (epSquare : Option Nat)
    (safeKing : Option Nat) : List Move :=
  match epSquare with
  | none => []
  | some d =>
    (bbSquares (bd.pawns &&& bd.byColor turn &&& pawnAttacks turn.other d)).filterMap
      (fun o =>
        match safeKing with
        | none => some (.enPassant o d)
        | some king =>
          let them := bd.byColor turn.other
          let captured := sqCombine d o
          if bbAny (kingAttacks king &&& them &&& bd.kings) ||
             bbAny (knightAttacks king &&& them &&& bd.knights) ||
             bbAny (pawnAttacks turn king &&& bbDiscard them captured &&& bd.pawns) then
            none
          else
            let occ := bbAdd (bbFlip (bbFlip bd.occupied o) captured) d
            if bbAny (rookAttacks king occ &&& them &&& bd.rooksAndQueens) ||
               bbAny (bishopAttacks king occ &&& them &&& bd.bishopsAndQueens) then
              none
            else some (.enPassant o d))

/-- `gen_standard` (`position.rs` lines 1380-1398). -/
def genStandard (v : PView) (epSquare : Option Nat) : List Move :=
  let ourKing := bbFirst (v.our .king)
  genEnPassant v.board v.turn epSquare ourKing ++
  match ourKing with
  | some king =>
    let cks := checkersOf v
    if cks = 0 then
      genSafeNonKing v (bbNot v.us) king ++ genSafeKing v (bbNot v.us) ++
      genCastlingMoves v king
    else evasions v king cks
  | none => genNonKing v (bbNot v.us)

/-- The `PView` of a variant that keeps the default `king_attackers` and
`castling_uncovers_rank_attack` methods. -/
def defaultView (bd : Board) (turn : Color) (cr : Bitboard) (kingPromos : Bool) : PView :=
  { board := bd
    turn := turn
    castlingRights := cr
    kAtt := fun sq att occ => bd.attacksTo sq att occ
    uncovers := fun rook kingTo => castlingUncoversRankAttack bd turn rook kingTo
    kingPromos := kingPromos }

/-! ## Chess (`position.rs` lines 250-377) -/

/-- The `Chess` position record. -/
structure Chess where
  board : Board
  turn : Color
  castlingRights : Bitboard
  epSquare : Option Nat
  halfmoveClock : Nat
  fullmoves : Nat
deriving DecidableEq

/-- The shared-state slice of a `Chess` position. -/
def Chess.toCore (p : Chess) : Core :=
  ⟨p.board, p.turn, p.castlingRights, p.epSquare, p.halfmoveClock, p.fullmoves⟩

/-- Rebuild a `Chess` position from the shared-state slice. -/
def Chess.ofCore (c : Core) : Chess :=
  ⟨c.board, c.turn, c.castlingRights, c.epSquare, c.halfmoveClock, c.fullmoves⟩

/-- `Chess::play_unchecked` (`position.rs` lines 289-294): just `do_move`. -/
def Chess.playUnchecked (p : Chess) (m : Move) : Chess := .ofCore (doMove p.toCore m)

/-- The trait view of a `Chess` position (default methods, no king
promotions). -/
def Chess.view (p : Chess) : PView := defaultView p.board p.turn p.castlingRights false

/-- `Chess::legal_moves` (`position.rs` lines 311-313): `gen_standard` on the
raw `ep_square` field. -/
def Chess.legalMoves (p : Chess) : List Move := genStandard p.view p.epSquare

/-- `Position::is_legal` (`position.rs` lines 157-162): membership in
`legal_moves`. -/
def Chess.isLegal (p : Chess) (m : Move) : Bool := decide (m ∈ p.legalMoves)

/-- `Position::play` (`position.rs` lines 230-238). -/
def Chess.play (p : Chess) (m : Move) : Except Unit Chess :=
  if p.isLegal m then .ok (p.playUnchecked m) else .error ()

/-- `Chess::is_insufficient_material` (`position.rs` lines 351-373), stated on
the board it reads. -/
def chessInsufficientMaterial (bd : Board) : Bool :=
  if bbAny bd.pawns || bbAny bd.rooksAndQueens then false
  else if bbCount bd.occupied < 3 then true
  else if bbAny bd.knights then false
  else if bbIsEmpty (bd.bishops &&& darkSquares) then true
  else if bbIsEmpty (bd.bishops &&& lightSquares) then true
  else false

/-- `Chess::is_insufficient_material`. -/
def Chess.isInsufficientMaterial (p : Chess) : Bool := chessInsufficientMaterial p.board

/-! ## Crazyhouse (`position.rs` lines 379-499) -/

/-- The `Crazyhouse` position record. -/
structure Crazyhouse where
  board : Board
  pockets : Pockets
  turn : Color
  castlingRights : Bitboard
  epSquare : Option Nat
  halfmoveClock : Nat
  fullmoves : Nat
deriving DecidableEq

/-- `Crazyhouse::play_unchecked` (`position.rs` lines 439-459): `do_move` with
a discarded halfmove clock, then the pocket update keyed on the mover's color,
then a saturating increment of the real halfmove clock. -/
def Crazyhouse.playUnchecked (p : Crazyhouse) (m : Move) : Crazyhouse :=
  let turn := p.turn
  let c := doMove ⟨p.board, p.turn, p.castlingRights, p.epSquare, 0, p.fullmoves⟩ m
  let pockets :=
    match m with
    | .normal _ _ (some role) _ _ => p.pockets.add ⟨turn, role⟩
    | .enPassant _ _ => p.pockets.add ⟨turn, .pawn⟩
    | .put role _ => p.pockets.remove ⟨turn, role⟩
    | _ => p.pockets
  { board := c.board
    pockets := pockets
    turn := c.turn
    castlingRights := c.castlingRights
    epSquare := c.epSquare
    halfmoveClock := satAdd32 p.halfmoveClock 1
    fullmoves := c.fullmoves }

/-! ## King of the Hill (`position.rs` lines 501-584) -/

/-- The `KingOfTheHill` position record. -/
structure KingOfTheHill where
  board : Board
  turn : Color
  castlingRights : Bitboard
  epSquare : Option Nat
  halfmoveClock : Nat
  fullmoves : Nat
deriving DecidableEq

/-- `KingOfTheHill::play_unchecked` (`position.rs` lines 540-545). -/
def KingOfTheHill.playUnchecked (p : KingOfTheHill) (m : Move) : KingOfTheHill :=
  let c := doMove ⟨p.board, p.turn, p.castlingRights, p.epSquare, p.halfmoveClock,
    p.fullmoves⟩ m
  ⟨c.board, c.turn, c.castlingRights, c.epSquare, c.halfmoveClock, c.fullmoves⟩

/-! ## Giveaway (`position.rs` lines 586-699) -/

/-- The `Giveaway` position record. -/
structure Giveaway where
  board : Board
  turn : Color
  castlingRights : Bitboard
  epSquare : Option Nat
  halfmoveClock : Nat
  fullmoves : Nat
deriving DecidableEq

/-- `Giveaway::play_unchecked` (`position.rs` lines 626-631). -/
def Giveaway.playUnchecked (p : Giveaway) (m : Move) : Giveaway :=
  let c := doMove ⟨p.board, p.turn, p.castlingRights, p.epSquare, p.halfmoveClock,
    p.fullmoves⟩ m
  ⟨c.board, c.turn, c.castlingRights, c.epSquare, c.halfmoveClock, c.fullmoves⟩

/-! ## Three-Check (`position.rs` lines 701-802) -/

/-- The `ThreeCheck` position record. -/
structure ThreeCheck where
  board : Board
  turn : Color
  castlingRights : Bitboard
  epSquare : Option Nat
  remainingChecks : RemainingChecks
  halfmoveClock : Nat
  fullmoves : Nat
deriving DecidableEq

/-- The trait view of a `ThreeCheck` position (all default methods). -/
def ThreeCheck.view (p : ThreeCheck) : PView :=
  defaultView p.board p.turn p.castlingRights false

/-- `Position::checkers` for `ThreeCheck` (default method). -/
def ThreeCheck.checkers (p : ThreeCheck) : Bitboard := checkersOf p.view

/-- The state of a `ThreeCheck` position after `do_move` but before the
remaining-checks update of `play_unchecked`. -/
def ThreeCheck.afterMove (p : ThreeCheck) (m : Move) : ThreeCheck :=
  let c := doMove ⟨p.board, p.turn, p.castlingRights, p.epSquare, p.halfmoveClock,
    p.fullmoves⟩ m
  ⟨c.board, c.turn, c.castlingRights, c.epSquare, p.remainingChecks,
    c.halfmoveClock, c.fullmoves⟩

/-- `ThreeCheck::play_unchecked` (`position.rs` lines 742-754): `do_move`,
then subtract one from the mover's remaining checks if the move gave check
(`self.checkers().any()` on the updated state). -/
def ThreeCheck.playUnchecked (p : ThreeCheck) (m : Move) : ThreeCheck :=
  let q := p.afterMove m
  if bbAny q.checkers then
    { q with remainingChecks := q.remainingChecks.subtract p.turn }
  else q

/-- `ThreeCheck::is_variant_end` (`position.rs` lines 789-791). -/
def ThreeCheck.isVariantEnd (p : ThreeCheck) : Bool :=
  p.remainingChecks.white = 0 || p.remainingChecks.black = 0

/-- `ThreeCheck::variant_outcome` (`position.rs` lines 793-801). -/
def ThreeCheck.variantOutcome (p : ThreeCheck) : Option Outcome :=
  if p.remainingChecks.white = 0 then some (.decisive .white)
  else if p.remainingChecks.black = 0 then some (.decisive .black)
  else none

/-! ## Horde (`position.rs` lines 804-919) -/

/-- The `Horde` position record. -/
structure Horde where
  board : Board
  turn : Color
  castlingRights : Bitboard
  epSquare : Option Nat
  halfmoveClock : Nat
  fullmoves : Nat
deriving DecidableEq

/-- `Horde::play_unchecked` (`position.rs` lines 843-848). -/
def Horde.playUnchecked (p : Horde) (m : Move) : Horde :=
  let c := doMove ⟨p.board, p.turn, p.castlingRights, p.epSquare, p.halfmoveClock,
    p.fullmoves⟩ m
  ⟨c.board, c.turn, c.castlingRights, c.epSquare, c.halfmoveClock, c.fullmoves⟩

/-- The trait view of a `Horde` position (all default methods). -/
def Horde.view (p : Horde) : PView := defaultView p.board p.turn p.castlingRights false

/-- `Horde::legal_moves` (`position.rs` lines 898-900): plain `gen_standard`. -/
def Horde.legalMoves (p : Horde) : List Move := genStandard p.view p.epSquare

/-! ## Atomic (`position.rs` lines 921-1084) -/

/-- The `Atomic` position record. -/
structure Atomic where
  board : Board
  turn : Color
  castlingRights : Bitboard
  epSquare : Option Nat
  halfmoveClock : Nat
  fullmoves : Nat
deriving DecidableEq

/-- `Atomic::king_attackers` (`position.rs` lines 1010-1016): no check from
any piece while the kings are adjacent. -/
def atomicKingAttackers (bd : Board) (sq : Nat) (attacker : Color)
    (occupied : Bitboard) : Bitboard :=
  if bbAny (kingAttacks sq &&& bd.byPiece ⟨attacker, .king⟩) then 0
  else bd.attacksTo sq attacker occupied

/-- `Atomic::castling_uncovers_rank_attack` (`position.rs` lines 1018-1021). -/
def atomicUncovers (bd : Board) (turn : Color) (rook kingTo : Nat) : Bool :=
  bbIsEmpty (kingAttacks kingTo &&& bd.kings &&& bd.byColor turn.other) &&
  castlingUncoversRankAttack bd turn rook kingTo

/-- The trait view of an `Atomic` position (overridden `king_attackers` and
`castling_uncovers_rank_attack`). -/
def Atomic.view (p : Atomic) : PView :=
  { board := p.board
    turn := p.turn
    castlingRights := p.castlingRights
    kAtt := fun sq att occ => atomicKingAttackers p.board sq att occ
    uncovers := fun rook kingTo => atomicUncovers p.board p.turn rook kingTo
    kingPromos := false }

/-- `Atomic::play_unchecked` (`position.rs` lines 960-983): `do_move`, then on
a capture remove the capturer and detonate every non-pawn in the 8-neighbour
explosion radius, discarding castling rights on detonated squares. -/
def Atomic.playUnchecked (p : Atomic) (m : Move) : Atomic :=
  let c := doMove ⟨p.board, p.turn, p.castlingRights, p.epSquare, p.halfmoveClock,
    p.fullmoves⟩ m
  let (bd, cr) :=
    match m with
    | .normal _ _ (some _) dest _ | .enPassant _ dest =>
      let bd := (c.board.removePieceAt dest).1
      let radius := kingAttacks dest &&& bd.occupied &&& bbNot bd.pawns
      let bd := (bbSquares radius).foldl (fun b s => (Board.removePieceAt b s).1) bd
      (bd, bbDiscardAll c.castlingRights radius)
    | _ => (c.board, c.castlingRights)
  ⟨bd, c.turn, cr, c.epSquare, c.halfmoveClock, c.fullmoves⟩

/-- The pseudo-legal candidates of `Atomic::legal_moves` before the post
filter (`position.rs` lines 1023-1028). -/
def Atomic.pseudoMoves (p : Atomic) : List Move :=
  genEnPassant p.board p.turn p.epSquare none ++
  genNonKing p.view (bbNot p.view.us) ++
  genPieceMoves p.view .king kingAttacks (bbNot p.board.occupied) ++
  (match p.board.kingOf p.turn with
   | some king => genCastlingMoves p.view king
   | none => [])

/-- The retention predicate of `Atomic::legal_moves` (`position.rs` lines
1030-1038): replay the candidate; keep it iff our king survives and either the
enemy king is gone or our king is not attacked. -/
def Atomic.keeps (p : Atomic) (m : Move) : Bool :=
  let after := p.playUnchecked m
  match after.board.kingOf p.turn with
  | some ourKing =>
    bbIsEmpty (after.board.byPiece ⟨p.turn.other, .king⟩) ||
    bbIsEmpty (atomicKingAttackers after.board ourKing p.turn.other after.board.occupied)
  | none => false

/-- `Atomic::legal_moves` (`position.rs` lines 1023-1039).  `swap_retain` is
modelled as a filter: it retains exactly the elements satisfying the
predicate (only the order, which no claim depends on, differs). -/
def Atomic.legalMoves (p : Atomic) : List Move := p.pseudoMoves.filter p.keeps

/-! ## Racing Kings (`position.rs` lines 1086-1235) -/

/-- The `RacingKings` position record (it has no castling rights field). -/
structure RacingKings where
  board : Board
  turn : Color
  epSquare : Option Nat
  halfmoveClock : Nat
  fullmoves : Nat
deriving DecidableEq

/-- `RacingKings::play_unchecked` (`position.rs` lines 1123-1130): `do_move`
with discarded fake castling rights. -/
def RacingKings.playUnchecked (p : RacingKings) (m : Move) : RacingKings :=
  let c := doMove ⟨p.board, p.turn, 0, p.epSquare, p.halfmoveClock, p.fullmoves⟩ m
  ⟨c.board, c.turn, c.epSquare, c.halfmoveClock, c.fullmoves⟩

/-! ## UCI (`src/uci.rs`) -/

/-- A move as represented in the UCI protocol (`Uci` in `uci.rs`). -/
inductive Uci where
  | normal (orig dest : Nat) (promo : Option Role)
  | put (role : Role) (dest : Nat)
  | null
deriving DecidableEq

/-- Modelled from the spec: `Role::from_char` for the lowercase piece letters
(`types.rs` missing). -/
def roleOfChar (c : Char) : Option Role :=
  if c = 'p' then some .pawn
  else if c = 'n' then some .knight
  else if c = 'b' then some .bishop
  else if c = 'r' then some .rook
  else if c = 'q' then some .queen
  else if c = 'k' then some .king
  else none

/-- Modelled from the spec: the lowercase character of a role. -/
def roleChar (r : Role) : Char :=
  match r with
  | .pawn => 'p'
  | .knight => 'n'
  | .bishop => 'b'
  | .rook => 'r'
  | .queen => 'q'
  | .king => 'k'

/-- Modelled from the spec: the uppercase character of a role. -/
def roleCharUpper (r : Role) : Char :=
  match r with
  | .pawn => 'P'
  | .knight => 'N'
  | .bishop => 'B'
  | .rook => 'R'
  | .queen => 'Q'
  | .king => 'K'

/-- Modelled from the spec: `Square::from_str` of a two-character square name
(lowercase file letter `a..h`, rank digit `1..8`). -/
def sqOfChars (f r : Char) : Option Nat :=
  if 97 ≤ f.toNat ∧ f.toNat ≤ 104 ∧ 49 ≤ r.toNat ∧ r.toNat ≤ 56 then
    some ((f.toNat - 97) + 8 * (r.toNat - 49))
  else none

/-- Modelled from the spec: the display form of a square (file letter and
rank digit). -/
def sqName (sq : Nat) : String :=
  String.mk [Char.ofNat (97 + sqFile sq), Char.ofNat (49 + sqRank sq)]

/-- `char::to_ascii_lowercase`. -/
def charToAsciiLower (c : Char) : Char :=
  if 65 ≤ c.toNat ∧ c.toNat ≤ 90 then Char.ofNat (c.toNat + 32) else c

/-- `Uci::from_str` (`uci.rs` lines 20-52), on the character list of the
input (every accepted input is ASCII, so byte slicing and character indexing
agree). -/
def uciFromStr (s : String) : Except Unit Uci :=
  let cs := s.toList
  if cs.length < 4 ∨ 5 < cs.length then .error ()
  else
    match cs with
    | [a, b, c, d] =>
      match sqOfChars a b, sqOfChars c d with
      | some o, some t => .ok (.normal o t none)
      | _, _ =>
        if b = '@' then
          match sqOfChars c d with
          | some t =>
            match roleOfChar (charToAsciiLower a) with
            | some r => .ok (.put r t)
            | none => .error ()
          | none => if s = "0000" then .ok .null else .error ()
        else if s = "0000" then .ok .null else .error ()
    | [a, b, c, d, e] =>
      match sqOfChars a b, sqOfChars c d with
      | some o, some t =>
        match roleOfChar e with
        | some r => .ok (.normal o t (some r))
        | none => .error ()
      | _, _ =>
        if b = '@' then
          match sqOfChars c d with
          | some t =>
            match roleOfChar (charToAsciiLower a) with
            | some r => .ok (.put r t)
            | none => .error ()
          | none => .error ()
        else .error ()
    | _ => .error ()

/-- `fmt::Display for Uci` (`uci.rs` lines 54-67). -/
def uciDisplay (u : Uci) : String :=
  match u with
  | .normal o t none => sqName o ++ sqName t
  | .normal o t (some r) => sqName o ++ sqName t ++ String.mk [roleChar r]
  | .put r t => String.mk [roleCharUpper r, '@'] ++ sqName t
  | .null => "0000"

/-- `Into<Uci> for &Move` (`uci.rs` lines 69-84): castling renders
Chess960-style as king-square to rook-square. -/
def uciOfMove (m : Move) : Uci :=
  match m with
  | .normal _ o _ d promo => .normal o d promo
  | .enPassant o d => .normal o d none
  | .castle king rook => .normal king rook none
  | .put r d => .put r d
  | .null => .null

/-- `Uci::to_move` (`uci.rs` lines 86-118), instantiated at the `Chess`
variant: build the candidate move (with Chess960 and two-file castle
detection for king moves) and validate it with `is_legal`; the null UCI is
returned without validation. -/
def uciToMove (p : Chess) (u : Uci) : Except Unit Move :=
  match u with
  | .normal o d promo =>
    match p.board.roleAt o with
    | none => .error ()
    | some role =>
      let cand :=
        if role = .king ∧ bbContains p.castlingRights d then Move.castle o d
        else if role = .king ∧ o = p.turn.fold 4 60 ∧ sqRank d = p.turn.fold 0 7 ∧
            sqDistance o d = 2 then
          if sqFile o < sqFile d then Move.castle o (p.turn.fold 7 63)
          else Move.castle o (p.turn.fold 0 56)
        else Move.normal role o (p.board.roleAt d) d promo
      if p.isLegal cand then .ok cand else .error ()
  | .put role dest =>
    let cand := Move.put role dest
    if p.isLegal cand then .ok cand else .error ()
  | .null => .ok .null

/-- The full round trip of claim C2: convert a move to UCI, render it, parse
it back and resolve it against the position with `to_move`. -/
def uciRoundTrip (p : Chess) (m : Move) : Except Unit Move :=
  match uciFromStr (uciDisplay (uciOfMove m)) with
  | .ok u => uciToMove p u
  | .error e => .error e

/-! ## FEN castling token (`src/fen.rs` lines 293-314) -/

/-- `FenError` (`fen.rs` lines 120-129). -/
inductive FenError where
  | invalidBoard
  | invalidPocket
  | invalidTurn
  | invalidCastling
  | invalidEpSquare
  | invalidRemainingChecks
  | invalidHalfmoveClock
  | invalidFullmoves
deriving DecidableEq

/-- `char::is_ascii_uppercase`. -/
def charIsAsciiUppercase (c : Char) : Bool := 65 ≤ c.toNat ∧ c.toNat ≤ 90

/-- Modelled from the spec: `Color::from_bool` (uppercase castling letters
denote White). -/
def colorFromBool (b : Bool) : Color := if b then .white else .black

/-- The per-character body of the castling-token loop of `Fen::from_str`
(`fen.rs` lines 296-311): the rook square denoted by one castling letter, or
`none` when the letter denotes no rook of its color on that color's first
rank (the source's wildcard match arm and the `flag.ok_or(...)` both produce
`FenError::InvalidCastling`, so both are `none` here). -/
def castlingFlag (bd : Board) (ch : Char) : Option Nat :=
  let color := colorFromBool (charIsAsciiUppercase ch)
  let candidates := bbRelativeRank color 0 &&& bd.byPiece ⟨color, .rook⟩
  let lc := charToAsciiLower ch
  if lc = 'k' then bbLast candidates
  else if lc = 'q' then bbFirst candidates
  else if 97 ≤ lc.toNat ∧ lc.toNat ≤ 104 then
    bbFirst (candidates &&& bbFile (lc.toNat - 97))
  else none

/-- The castling-token loop of `Fen::from_str` (`fen.rs` lines 295-313):
accumulate the rook square of each letter into the castling rights, failing
with `InvalidCastling` on the first letter without a rook. -/
def parseCastling (bd : Board) (acc : Bitboard) :
    List Char → Except FenError Bitboard
  | [] => .ok acc
  | ch :: rest =>
    match castlingFlag bd ch with
    | some sq => parseCastling bd (bbAdd acc sq) rest
    | none => .error .invalidCastling

/-! ## Concrete example positions used by the scenario theorems -/

/-- A position with only the two kings: White king a1 (square 0), Black king
h8 (square 63), White to move. -/
def kingsOnlyBoard : Board :=
  (Board.empty.setPieceAt 0 ⟨.white, .king⟩ false).setPieceAt 63 ⟨.black, .king⟩ false

/-- The kings-only `Chess` position. -/
def kingsOnly : Chess := ⟨kingsOnlyBoard, .white, 0, none, 0, 1⟩

/-- A position with a legal en-passant capture: White king a1, White pawn d5
(35); Black king h8, Black pawn e5 (36) that just moved two squares; the
en-passant square is e6 (44), White to move. -/
def epExampleBoard : Board :=
  (((Board.empty.setPieceAt 0 ⟨.white, .king⟩ false).setPieceAt
    35 ⟨.white, .pawn⟩ false).setPieceAt
    63 ⟨.black, .king⟩ false).setPieceAt 36 ⟨.black, .pawn⟩ false

/-- The `Chess` position with the legal en-passant capture d5xe6. -/
def epExample : Chess := ⟨epExampleBoard, .white, 0, some 44, 0, 3⟩

/-- A Crazyhouse position: White rook d1 (3) and king e1 (4); Black king e8
(60) and a *promoted* queen d8 (59), White to move. -/
def zhExampleBoard : Board :=
  (((Board.empty.setPieceAt 3 ⟨.white, .rook⟩ false).setPieceAt
    4 ⟨.white, .king⟩ false).setPieceAt
    59 ⟨.black, .queen⟩ true).setPieceAt 60 ⟨.black, .king⟩ false

/-- The Crazyhouse position with the promoted black queen on d8. -/
def zhExample : Crazyhouse := ⟨zhExampleBoard, Pockets.empty, .white, 0, none, 0, 1⟩

/-- The capture of the promoted queen: Rxd8. -/
def zhCapture : Move := .normal .rook 3 (some .queen) 59 none

/-- A ThreeCheck position in which White has delivered all of its checks:
White's remaining-checks count is 0, Black's is 3. -/
def threeCheckEx : ThreeCheck := ⟨kingsOnlyBoard, .black, 0, none, ⟨0, 3⟩, 0, 1⟩

/-- A Horde position: a single white pawn on a2 (square 8, rank index 1) and
the black king on h8, White to move; a3 and a4 are empty. -/
def hordeExampleBoard : Board :=
  (Board.empty.setPieceAt 8 ⟨.white, .pawn⟩ false).setPieceAt 63 ⟨.black, .king⟩ false

/-- The Horde position with the white pawn on a2. -/
def hordeExample : Horde := ⟨hordeExampleBoard, .white, 0, none, 0, 1⟩

/-- An Atomic position: White king e1 (4) and rook b2 (9); Black king a8
(56), knight b8 (57) and rook e8 (60).  White is in check from the rook on
e8; capturing the knight on b8 explodes the black king but leaves the white
king attacked. -/
def atomicExBoard : Board :=
  ((((Board.empty.setPieceAt 4 ⟨.white, .king⟩ false).setPieceAt
    9 ⟨.white, .rook⟩ false).setPieceAt
    56 ⟨.black, .king⟩ false).setPieceAt
    57 ⟨.black, .knight⟩ false).setPieceAt 60 ⟨.black, .rook⟩ false

/-- The Atomic position described at `atomicExBoard`. -/
def atomicEx : Atomic := ⟨atomicExBoard, .white, 0, none, 0, 1⟩

/-- The Atomic capture Rxb8 that detonates the black king. -/
def atomicExMove : Move := .normal .rook 9 (some .knight) 57 none

/-- A board with the two kings (e1, e8) and two white knights (b1, g1): no
pawns, rooks or queens, and the only non-king pieces are knights. -/
def twoKnightsBoard : Board :=
  (((Board.empty.setPieceAt 4 ⟨.white, .king⟩ false).setPieceAt
    60 ⟨.black, .king⟩ false).setPieceAt
    1 ⟨.white, .knight⟩ false).setPieceAt 6 ⟨.white, .knight⟩ false

end Shak

deriving instance DecidableEq for Except

namespace Shak

/-! ## Helper lemmas -/

/-- A union of bitboards is empty iff both parts are. -/
theorem lor_eq_zero_iff (m n : Nat) : m ||| n = 0 ↔ m = 0 ∧ n = 0 := by
  constructor
  · intro h
    constructor <;>
      [skip; skip] <;>
      · apply Nat.zero_of_testBit_eq_false
        intro i
        have hb := congrArg (fun x => Nat.testBit x i) h
        simp only [Nat.testBit_lor, Nat.zero_testBit, Bool.or_eq_false_iff] at hb
        first
        | exact hb.1
        | exact hb.2
  · rintro ⟨rfl, rfl⟩
    simp

/-- The lowest member of a bitboard is a member. -/
theorem bbFirst_contains {b : Bitboard} {sq : Nat} (h : bbFirst b = some sq) :
    bbContains b sq = true := by
  have hm : sq ∈ bbSquares b := by
    apply List.mem_of_mem_head?
    unfold bbFirst at h
    simp [h]
  exact (List.mem_filter.mp hm).2

/-- The highest member of a bitboard is a member. -/
theorem bbLast_contains {b : Bitboard} {sq : Nat} (h : bbLast b = some sq) :
    bbContains b sq = true := by
  have hm : sq ∈ bbSquares b := by
    apply List.mem_of_mem_getLast?
    unfold bbLast at h
    simp [h]
  exact (List.mem_filter.mp hm).2

/-! ## C10 -/

/-- C10 (confirmed): for every bitboard `b` and square `sq`,
`Bitboard::set(sq, true)` discards `sq` (the result does not contain it) and
`Bitboard::set(sq, false)` adds `sq` (the result contains it) — the boolean
argument of `set` is applied inverted. -/
theorem bitboard_set_inverted (b sq : Nat) (h : sq < 64) :
    bbSet b sq true = bbDiscard b sq ∧ bbSet b sq false = bbAdd b sq ∧
    bbContains (bbSet b sq true) sq = false ∧ bbContains (bbSet b sq false) sq = true := by
  refine ⟨rfl, rfl, ?_, ?_⟩
  · show (b &&& (mask64 ^^^ (1 <<< sq))).testBit sq = false
    have hm : mask64 = 2 ^ 64 - 1 := by norm_num [mask64]
    rw [Nat.testBit_land, Nat.testBit_xor, hm, Nat.testBit_two_pow_sub_one,
      Nat.shiftLeft_eq, one_mul, Nat.testBit_two_pow_self]
    simp [h]
  · show (b ||| (1 <<< sq)).testBit sq = true
    rw [Nat.testBit_lor, Nat.shiftLeft_eq, one_mul, Nat.testBit_two_pow_self]
    simp

/-- Witness for C10 at the concrete bitboard `5` and square `0`. -/
theorem bitboard_set_inverted_witness :
    bbSet 5 0 true = bbDiscard 5 0 ∧ bbSet 5 0 false = bbAdd 5 0 ∧
    bbContains (bbSet 5 0 true) 0 = false ∧ bbContains (bbSet 5 0 false) 0 = true :=
  bitboard_set_inverted 5 0 (by decide)

/-! ## C9 -/

/-- C9 (confirmed): for every variant position and every move applied with
`play_unchecked` — hence in particular for every move accepted by `play`,
which applies `play_unchecked` after the legality test — the side to move of
the resulting position is the negation of the original side to move. -/
theorem play_flips_turn :
    (∀ (p : Chess) (m : Move), (p.playUnchecked m).turn = p.turn.other) ∧
    (∀ (p : Crazyhouse) (m : Move), (p.playUnchecked m).turn = p.turn.other) ∧
    (∀ (p : KingOfTheHill) (m : Move), (p.playUnchecked m).turn = p.turn.other) ∧
    (∀ (p : Giveaway) (m : Move), (p.playUnchecked m).turn = p.turn.other) ∧
    (∀ (p : ThreeCheck) (m : Move), (p.playUnchecked m).turn = p.turn.other) ∧
    (∀ (p : Horde) (m : Move), (p.playUnchecked m).turn = p.turn.other) ∧
    (∀ (p : Atomic) (m : Move), (p.playUnchecked m).turn = p.turn.other) ∧
    (∀ (p : RacingKings) (m : Move), (p.playUnchecked m).turn = p.turn.other) ∧
    (∀ (p : Chess) (m : Move) (q : Chess), p.play m = .ok q → q.turn = p.turn.other) := by
  have hdo : ∀ (c : Core) (m : Move), (doMove c m).turn = c.turn.other := fun c m => rfl
  refine ⟨fun p m => rfl, fun p m => rfl, fun p m => rfl, fun p m => rfl,
    fun p m => ?_, fun p m => rfl, fun p m => ?_, fun p m => rfl,
    fun p m q hq => ?_⟩
  · unfold ThreeCheck.playUnchecked
    dsimp only
    split <;> rfl
  · cases m with
    | normal role orig capture dest promo => cases capture <;> rfl
    | enPassant o d => rfl
    | castle k r => rfl
    | put r d => rfl
    | null => rfl
  · unfold Chess.play at hq
    split at hq
    · injection hq with h
      subst h
      exact hdo p.toCore m
    · exact Except.noConfusion hq

/-- Witness for C9: a legal king move accepted by `play` from the kings-only
position flips the turn from White to Black. -/
theorem play_flips_turn_witness :
    (Chess.playUnchecked kingsOnly (Move.normal .king 0 none 1 none)).turn = Color.black :=
  play_flips_turn.2.2.2.2.2.2.2.2 kingsOnly (Move.normal .king 0 none 1 none)
    (Chess.playUnchecked kingsOnly (Move.normal .king 0 none 1 none)) (by decide)

/-! ## C6 -/

/-- C6 (confirmed): in Horde a white pawn standing on rank 1 (rank index 1 in
the 0-based numbering of `Square::rank` and `Bitboard::rank`, as used
throughout the spec) may advance two squares: in `hordeExample` the white
pawn on square 8 stands on rank 1, is unobstructed, White is to move, and
`legal_moves` contains the double push to square 24, two ranks ahead. -/
theorem horde_rank1_double_push :
    sqRank 8 = 1 ∧
    bbContains (hordeExample.board.byPiece ⟨.white, .pawn⟩) 8 = true ∧
    hordeExample.turn = Color.white ∧
    bbContains hordeExample.board.occupied 16 = false ∧
    bbContains hordeExample.board.occupied 24 = false ∧
    Move.normal .pawn 8 none 24 none ∈ Horde.legalMoves hordeExample := by
  refine ⟨by decide, by decide, rfl, by decide, by decide, by decide⟩

/-! ## C2 -/

/-- C2 (code_bug): the UCI round trip is not the identity on en-passant
moves.  In `epExample` the capture d5xe6 en passant is legal; its UCI
rendering is `d5e6`, which parses back, but `to_move` rebuilds it as a
pseudo-normal pawn move that fails the `is_legal` validation, so the round
trip returns an error instead of the original move. -/
theorem uci_ep_roundtrip_fails :
    Move.enPassant 35 44 ∈ Chess.legalMoves epExample ∧
    uciDisplay (uciOfMove (Move.enPassant 35 44)) = "d5e6" ∧
    uciRoundTrip epExample (Move.enPassant 35 44) = .error () ∧
    uciRoundTrip epExample (Move.enPassant 35 44) ≠ .ok (Move.enPassant 35 44) := by
  refine ⟨by decide, by decide, by decide, by decide⟩

/-! ## C3 -/

/-! ## C1 -/

/-- Counterexample for C1: in `threeCheckEx` White's own remaining-checks
count is zero while Black's is 3, and `variant_outcome` reports White — the
side whose *own* count reached zero — as the winner, not the side whose
opponent's count reached zero (which would be Black). -/
theorem threecheck_winner_counterexample :
    ThreeCheck.variantOutcome threeCheckEx = some (.decisive .white) ∧
    ThreeCheck.variantOutcome threeCheckEx ≠ some (.decisive .black) ∧
    threeCheckEx.remainingChecks.white = 0 ∧
    threeCheckEx.remainingChecks.black = 3 ∧
    ThreeCheck.isVariantEnd threeCheckEx = true := by
  refine ⟨by decide, by decide, by decide, by decide, by decide⟩

/-- C1 (corrected): in ThreeCheck the game is variant-over exactly when
either side's remaining-checks count is zero, and the winner reported by
`variant_outcome` is the side whose *own* count reached zero (White is
checked first when both are zero); `play_unchecked` updates the counts by
decrementing the mover's own count exactly when the move leaves the opponent
in check. -/
theorem threecheck_variant_end_amended (p : ThreeCheck) :
    (p.isVariantEnd = true ↔ p.remainingChecks.white = 0 ∨ p.remainingChecks.black = 0) ∧
    (∀ w, p.variantOutcome = some (.decisive w) ↔
      (w = Color.white ∧ p.remainingChecks.white = 0) ∨
      (w = Color.black ∧ p.remainingChecks.black = 0 ∧ p.remainingChecks.white ≠ 0)) ∧
    (∀ m, (p.playUnchecked m).remainingChecks =
      if bbAny (p.afterMove m).checkers then p.remainingChecks.subtract p.turn
      else p.remainingChecks) := by
  refine ⟨?_, fun w => ?_, fun m => ?_⟩
  · simp [ThreeCheck.isVariantEnd]
  · unfold ThreeCheck.variantOutcome
    split_ifs with h1 h2 <;> cases w <;> simp_all
  · unfold ThreeCheck.playUnchecked
    dsimp only
    split <;> rfl

/-! ## C4 -/

/-- Counterexample for C4: `twoKnightsBoard` has no pawns, no rooks and no
queens and its only non-king pieces are knights, yet
`Chess::is_insufficient_material` returns `false` (the code refuses any
position with a knight and three or more pieces). -/
theorem chess_insufficient_material_counterexample :
    twoKnightsBoard.pawns = 0 ∧ twoKnightsBoard.rooks = 0 ∧
    twoKnightsBoard.queens = 0 ∧
    twoKnightsBoard.occupied = (twoKnightsBoard.kings ||| twoKnightsBoard.knights) ∧
    bbAny twoKnightsBoard.knights = true ∧
    chessInsufficientMaterial twoKnightsBoard = false := by
  refine ⟨by decide, by decide, by decide, by decide, by decide, by decide⟩

/-- C4 (corrected): `Chess::is_insufficient_material` returns true iff the
board has no pawns, no rooks and no queens, and either the total piece count
is at most 2, or there are *no knights* and all bishops stand on a single
colour complex. -/
theorem chess_insufficient_material_amended (bd : Board) :
    chessInsufficientMaterial bd = true ↔
      bd.pawns = 0 ∧ bd.rooks = 0 ∧ bd.queens = 0 ∧
      (bbCount bd.occupied ≤ 2 ∨
       (bd.knights = 0 ∧
        (bd.bishops &&& darkSquares = 0 ∨ bd.bishops &&& lightSquares = 0))) := by
  unfold chessInsufficientMaterial
  simp only [bbAny, bbIsEmpty, Board.rooksAndQueens, Bool.or_eq_true, decide_eq_true_eq]
  split_ifs with h1 h2 h3 h4 h5
  · simp only [false_iff]
    rintro ⟨hP, hR, hQ, -⟩
    rcases h1 with h | h
    · exact h hP
    · exact h ((lor_eq_zero_iff _ _).mpr ⟨hR, hQ⟩)
  · push_neg at h1
    have hrq := (lor_eq_zero_iff _ _).mp h1.2
    simp only [true_iff]
    exact ⟨h1.1, hrq.1, hrq.2, Or.inl (by omega)⟩
  · simp only [false_iff]
    rintro ⟨-, -, -, hcnt | ⟨hK, -⟩⟩
    · omega
    · exact h3 hK
  · push_neg at h1 h3
    have hrq := (lor_eq_zero_iff _ _).mp h1.2
    simp only [true_iff]
    exact ⟨h1.1, hrq.1, hrq.2, Or.inr ⟨h3, Or.inl h4⟩⟩
  · push_neg at h1 h3
    have hrq := (lor_eq_zero_iff _ _).mp h1.2
    simp only [true_iff]
    exact ⟨h1.1, hrq.1, hrq.2, Or.inr ⟨h3, Or.inr h5⟩⟩
  · simp only [false_iff]
    rintro ⟨-, -, -, hcnt | ⟨-, hd | hl⟩⟩
    · omega
    · exact h4 hd
    · exact h5 hl

/-! ## C5 -/

/-- Counterexample for C5: in `atomicEx` the capture Rxb8 detonates the black
king; the move is kept by `legal_moves` although the white king survives
*and is still attacked* by the black rook on e8 (both under the plain
`attacks_to` and under Atomic's `king_attackers`, since the shielding enemy
king is gone).  This refutes the claim's "only if the king is not attacked"
direction. -/
theorem atomic_filter_counterexample :
    atomicExMove ∈ Atomic.legalMoves atomicEx ∧
    (Atomic.playUnchecked atomicEx atomicExMove).board.kingOf .white = some 4 ∧
    (Atomic.playUnchecked atomicEx atomicExMove).board.byPiece ⟨.black, .king⟩ = 0 ∧
    atomicKingAttackers (Atomic.playUnchecked atomicEx atomicExMove).board 4 .black
      (Atomic.playUnchecked atomicEx atomicExMove).board.occupied ≠ 0 ∧
    (Atomic.playUnchecked atomicEx atomicExMove).board.attacksTo 4 .black
      (Atomic.playUnchecked atomicEx atomicExMove).board.occupied ≠ 0 := by
  refine ⟨by decide, by decide, by decide, by decide, by decide⟩

/-- C5 (corrected): Atomic's `legal_moves` keeps a pseudo-legal candidate iff,
after replaying it on a copy of the position, the mover's king still exists
and either the enemy king has been destroyed or the mover's king is not
attacked (by Atomic's `king_attackers`, under which adjacent kings shield
each other). -/
theorem atomic_legal_moves_amended (p : Atomic) (m : Move) :
    m ∈ p.legalMoves ↔
      m ∈ p.pseudoMoves ∧
      ∃ k, (p.playUnchecked m).board.kingOf p.turn = some k ∧
        ((p.playUnchecked m).board.byPiece ⟨p.turn.other, .king⟩ = 0 ∨
         atomicKingAttackers (p.playUnchecked m).board k p.turn.other
           (p.playUnchecked m).board.occupied = 0) := by
  unfold Atomic.legalMoves
  rw [List.mem_filter]
  refine and_congr_right fun _ => ?_
  unfold Atomic.keeps
  dsimp only
  cases hk : (p.playUnchecked m).board.kingOf p.turn with
  | none => simp [hk]
  | some k0 => simp [hk, bbIsEmpty, Bool.or_eq_true, decide_eq_true_eq]

/-! ## C7 -/

/-- Counterexample for C7: at the kings-only position, `to_move` of the null
UCI returns `Ok(Move::Null)` although `Move::Null` fails `is_legal` (the
legal-move list never contains null moves), so `to_move` does not validate
the null move. -/
theorem uci_null_not_validated_counterexample :
    uciToMove kingsOnly Uci.null = .ok Move.null ∧
    Chess.isLegal kingsOnly Move.null = false := by
  refine ⟨by decide, by decide⟩

/-- C7 (corrected): `Uci::to_move` validates the candidates built from
normal and put UCIs against `is_legal`, but the null UCI maps to `Move::Null`
and is returned `Ok` *without* that validation: every `Ok` result is either
the null move or a move satisfying `is_legal`. -/
theorem uci_to_move_validates_amended (p : Chess) (u : Uci) (m : Move)
    (h : uciToMove p u = .ok m) : m = .null ∨ p.isLegal m = true := by
  cases u with
  | null =>
    left
    unfold uciToMove at h
    injection h with h
    exact h.symm
  | put role dest =>
    right
    unfold uciToMove at h
    dsimp only at h
    split at h
    · injection h with h
      subst h
      assumption
    · exact Except.noConfusion h
  | normal o d promo =>
    right
    unfold uciToMove at h
    dsimp only at h
    cases hr : p.board.roleAt o with
    | none => rw [hr] at h; exact Except.noConfusion h
    | some role =>
      rw [hr] at h
      dsimp only at h
      repeat' split at h
      all_goals
        first
        | exact Except.noConfusion h
        | (injection h with h
           subst h
           assumption)

/-- Witness for C7 at a concrete king move of the kings-only position. -/
theorem uci_to_move_validates_witness :
    Move.normal .king 0 none 1 none = .null ∨
    Chess.isLegal kingsOnly (Move.normal .king 0 none 1 none) = true :=
  uci_to_move_validates_amended kingsOnly (Uci.normal 0 1 none)
    (Move.normal .king 0 none 1 none) (by decide)

/-! ## C8 -/

/-- C8 (confirmed): in the castling token of a FEN, every character either
maps to a rook of its colour (uppercase = White) on that colour's relative
first rank — in which case parsing records that rook square — or parsing
fails with `FenError::InvalidCastling`; a token all of whose characters map
parses successfully, and any non-ASCII character (code point ≥ 128) never
maps, so it forces `InvalidCastling`. -/
theorem fen_castling_token (bd : Board) :
    (∀ (ch : Char) (sq : Nat), castlingFlag bd ch = some sq →
      bbContains (bbRelativeRank (colorFromBool (charIsAsciiUppercase ch)) 0 &&&
        bd.byPiece ⟨colorFromBool (charIsAsciiUppercase ch), .rook⟩) sq = true) ∧
    (∀ (ch : Char) (acc : Bitboard) (l : List Char), ch ∈ l → castlingFlag bd ch = none →
      parseCastling bd acc l = .error .invalidCastling) ∧
    (∀ ch : Char, 128 ≤ ch.toNat → castlingFlag bd ch = none) ∧
    (∀ (acc : Bitboard) (l : List Char), (∀ ch ∈ l, (castlingFlag bd ch).isSome = true) →
      ∃ b, parseCastling bd acc l = .ok b) := by
  refine ⟨fun ch sq h => ?_, fun ch acc l hm hf => ?_, fun ch h => ?_, fun acc l h => ?_⟩
  · unfold castlingFlag at h
    dsimp only at h
    split_ifs at h with h1 h2 h3
    · exact bbLast_contains h
    · exact bbFirst_contains h
    · have hc := bbFirst_contains h
      unfold bbContains at hc ⊢
      rw [Nat.testBit_land, Bool.and_eq_true] at hc
      exact hc.1
  · induction l generalizing acc with
    | nil => exact absurd hm (List.not_mem_nil ch)
    | cons hd tl ih =>
      unfold parseCastling
      rcases List.mem_cons.mp hm with rfl | htl
      · rw [hf]
      · cases hhd : castlingFlag bd hd with
        | none => rfl
        | some s => exact ih (bbAdd acc s) htl
  · unfold castlingFlag
    have hlow : charToAsciiLower ch = ch := by
      unfold charToAsciiLower
      rw [if_neg]
      rintro ⟨-, hb⟩
      omega
    rw [hlow]
    rw [if_neg, if_neg, if_neg]
    · rintro ⟨-, hb⟩
      omega
    · intro he
      rw [he] at h
      exact absurd h (by decide)
    · intro he
      rw [he] at h
      exact absurd h (by decide)
  · induction l generalizing acc with
    | nil => exact ⟨acc, rfl⟩
    | cons hd tl ih =>
      have hhd := h hd (List.mem_cons_self hd tl)
      rcases Option.isSome_iff_exists.mp hhd with ⟨s, hs⟩
      unfold parseCastling
      rw [hs]
      exact ih (bbAdd acc s) (fun c hc => h c (List.mem_cons_of_mem hd hc))

/-- Witness for C8: the non-ASCII character `·` in a castling token makes
parsing fail with `InvalidCastling`, even on the empty board. -/
theorem fen_castling_token_witness :
    parseCastling Board.empty 0 ['·'] = .error .invalidCastling :=
  (fen_castling_token Board.empty).2.1 '·' 0 ['·'] (by decide) (by decide)

/-! ## C3 -/

/-- C3 (code_bug): in Crazyhouse, capturing a *promoted* piece does not demote
it to a pawn in the pocket, contradicting the `Position` trait's own
documentation ("a promoted queen … will become a pawn when captured").  In
`zhExample` the black queen on d8 is promoted, yet after Rxd8 the white
pocket holds a queen and no pawn. -/
theorem crazyhouse_promoted_capture_not_demoted :
    bbContains zhExample.board.promoted 59 = true ∧
    zhExample.board.roleAt 59 = some .queen ∧
    (zhExample.playUnchecked zhCapture).pockets.white.queens = 1 ∧
    (zhExample.playUnchecked zhCapture).pockets.white.pawns = 0 := by
  refine ⟨by decide, by decide, by decide, by decide⟩

end Shak
